import Mathlib

/-!
Verification of the Quibo frontend core: a shallow embedding of the
workflow-stage model, the progress stepper, the outline editor, the
operation-status registry, the API gateway response handling, and the
query retry policy, together with proofs of the specified properties.

Sources embedded (TypeScript):
- `lib/api/client.ts` (`toCamelCase`, `transformKeys`, `apiClient`)
- the `createQueryClient` factory (retry predicate, backoff, mutations)
- `components/shared/progress-stepper.tsx` and the project layout
  (`progressPercent`, `getStepState`, `handleStepClick`)
- `components/project/workflow-tabs.tsx` and `types/project.ts`
  (`WorkflowStage`, `STAGE_ORDER`, `getStageIndex`)
- `components/project/outline-editor.tsx` (drag-and-drop reorder,
  inline editing: `handleDragOver`, `handleDrop`, `saveEditing`)
- `store/workflow-store.ts` (operation registry actions)
-/

namespace Quibo

/-! ## JSON values and the wire-to-internal key transform (client.ts) -/

/-- ASCII lowercase test, the `[a-z]` character class of the regex in
`toCamelCase` (`client.ts`). -/
def isLowerAscii (c : Char) : Bool :=
  97 ≤ c.toNat && c.toNat ≤ 122

/-- ASCII uppercasing as performed by `letter.toUpperCase()` on a
character matched by `[a-z]`. -/
def upcaseAscii (c : Char) : Char :=
  if isLowerAscii c then Char.ofNat (c.toNat - 32) else c

/-- Character-level embedding of
`str.replace(/_([a-z])/g, (_, letter) => letter.toUpperCase())`
(`toCamelCase` in `client.ts`): scanning left to right, an underscore
immediately followed by an ASCII lowercase letter is replaced by the
uppercased letter; scanning resumes after the consumed pair. -/
def camelChars : List Char → List Char
  | [] => []
  | c :: rest =>
    if c = '_' then
      match rest with
      | [] => ['_']
      | d :: rest2 =>
        if isLowerAscii d then upcaseAscii d :: camelChars rest2
        else '_' :: camelChars (d :: rest2)
    else c :: camelChars rest

/-- Embeds `toCamelCase` from `client.ts`, lifted to strings. -/
def toCamelCase (s : String) : String :=
  String.mk (camelChars s.data)

/-- Head of the list, if any, is not an ASCII lowercase letter. -/
def headNotLower : List Char → Bool
  | [] => true
  | c :: _ => !(isLowerAscii c)

/-- No-snake invariant: no underscore in the list is immediately
followed by an ASCII lowercase letter, so the camel-casing regex has
nothing left to rewrite. -/
def noSnake : List Char → Bool
  | [] => true
  | c :: rest => (!(c == '_') || headNotLower rest) && noSnake rest

/-- JSON-like values: the payloads `transformKeys` recurses over.
Objects are modelled as ordered association lists of fields. -/
inductive Json where
  | null : Json
  | bool (b : Bool) : Json
  | num (n : Int) : Json
  | str (s : String) : Json
  | arr (elems : List Json) : Json
  | obj (fields : List (String × Json)) : Json

mutual

/-- Embeds `transformKeys` from `client.ts`: recursively convert every object
key from snake_case to camelCase, descending through arrays and
objects; primitives are returned unchanged. -/
def transformKeys : Json → Json
  | .null => .null
  | .bool b => .bool b
  | .num n => .num n
  | .str s => .str s
  | .arr elems => .arr (transformKeysList elems)
  | .obj fields => .obj (transformKeysObj fields)

/-- Embeds `transformKeys` mapped over an array (`obj.map(transformKeys)`). -/
def transformKeysList : List Json → List Json
  | [] => []
  | x :: xs => transformKeys x :: transformKeysList xs

/-- Embeds `transformKeys` over the entries of an object: each key is
camel-cased and each value transformed recursively. -/
def transformKeysObj : List (String × Json) → List (String × Json)
  | [] => []
  | (k, v) :: fs => (toCamelCase k, transformKeys v) :: transformKeysObj fs

end

/-! ## API gateway response handling (`apiClient` in client.ts) -/

/-- The `details` payload of an `ApiClientError`: a parsed JSON body
or raw text. (In `apiClient` itself only the parsed-JSON form is ever
produced: the raw-text fallback in its catch block can never complete,
see `apiClient`.) -/
inductive ErrorDetails where
  | json (j : Json)
  | text (s : String)

/-- The `ApiClientError` class from `types/api.ts`: HTTP status,
message, and a details payload. -/
structure ApiClientError where
  status : Nat
  message : String
  details : ErrorDetails

/-- An HTTP response as observed by `apiClient`: the status code, the
raw body text, and the result of attempting to parse the body as JSON
(`none` when the body is not parseable JSON). -/
structure HttpResponse where
  status : Nat
  bodyText : String
  bodyJson : Option Json

/-- Outcome of a call through `apiClient`: a resolved value (`none`
for a 204 no-content response), a thrown `ApiClientError`, the
uncategorized TypeError escaping the catch block when a non-ok body is
not parseable JSON (the body stream is already consumed, see
`apiClient`), or the JSON parse failure raised by `response.json()`
on an unparseable success body. -/
inductive ApiResult where
  | ok (value : Option Json)
  | err (e : ApiClientError)
  | bodyConsumedTypeError
  | invalidJson

/-- Predicate `response.ok` per the fetch specification: status in 200..299. -/
def responseOk (status : Nat) : Bool :=
  200 ≤ status && status ≤ 299

/-- The response-handling tail of `apiClient` (`client.ts`): on a
non-ok status the code tries `response.json()` for the error details
and, when that parse fails, falls back to `response.text()` inside the
catch block — but by then `response.json()` has already consumed the
body stream (the response is never cloned), so `response.text()`
rejects with a TypeError that propagates uncaught: no `ApiClientError`
is thrown on that path. On a non-ok status with a parseable body, an
`ApiClientError` carrying the status and the parsed body is thrown; a
204 resolves to no value without parsing; any other success returns
the parsed body with all keys recursively camel-cased (an unparseable
success body raises the parse error from `response.json()`). -/
def apiClient (r : HttpResponse) : ApiResult :=
  if !(responseOk r.status) then
    match r.bodyJson with
    | some j => .err { status := r.status
                       message := "API error"
                       details := .json j }
    | none => .bodyConsumedTypeError
  else if r.status = 204 then
    .ok none
  else
    match r.bodyJson with
    | some j => .ok (some (transformKeys j))
    | none => .invalidJson

/-! ## Query retry policy (`createQueryClient`) -/

/-- List `HTTP_STATUS_TO_NOT_RETRY`: client-error statuses never retried. -/
def HTTP_STATUS_TO_NOT_RETRY : List Nat := [400, 401, 403, 404, 422]

/-- An error observed by the retry predicate: either an
`ApiClientError` or some other error (name and message). -/
inductive QueryError where
  | api (e : ApiClientError)
  | other (name message : String)

/-- The `retry` predicate of `createQueryClient` for queries:
at most 3 attempts, never for the listed client-error statuses, and
never while the browser reports itself offline. -/
def queryRetry (failureCount : Nat) (error : QueryError) (onLine : Bool) : Bool :=
  if 3 ≤ failureCount then false
  else if (match error with
           | .api e => HTTP_STATUS_TO_NOT_RETRY.contains e.status
           | .other _ _ => false) then false
  else if !onLine then false
  else true

/-- The `retryDelay` option of `createQueryClient`:
`Math.min(1000 * 2 ** attemptIndex, 30000)`. -/
def retryDelay (attemptIndex : Nat) : Nat :=
  min (1000 * 2 ^ attemptIndex) 30000

/-- The `mutations.retry` option of `createQueryClient`: mutations are
never automatically retried. -/
def mutationsRetry : Bool := false

/-! ## Progress stepper (`progress-stepper.tsx`, project layout) -/

/-- Embeds `progressPercent` from `ProgressStepper`:
`steps.length > 1 ? (currentStep / (steps.length - 1)) * 100 : 0`. -/
def progressPercent (stepCount currentStep : Nat) : ℚ :=
  if 1 < stepCount then (currentStep : ℚ) / ((stepCount : ℚ) - 1) * 100 else 0

/-- The per-step status of `getStepState`. -/
inductive StepState where
  | completed
  | current
  | future
deriving DecidableEq

/-- Embeds `getStepState` from `ProgressStepper`: steps strictly before the
current index are completed, the current index is current, the rest
are future. -/
def getStepState (currentStep stepIndex : Nat) : StepState :=
  if stepIndex < currentStep then .completed
  else if stepIndex = currentStep then .current
  else .future

/-- Embeds `handleStepClick` (both in `ProgressStepper` and the project
layout): clicking step `stepIndex` navigates to that step exactly when
it lies strictly before the current step; otherwise nothing happens.
`some i` models navigation to step `i`, `none` models a no-op. -/
def handleStepClick (currentStep stepIndex : Nat) : Option Nat :=
  if stepIndex < currentStep then some stepIndex else none

/-! ## Workflow stage model (`types/project.ts`, `workflow-tabs.tsx`) -/

/-- The closed `WorkflowStage` union from `types/project.ts`. -/
inductive WorkflowStage where
  | upload
  | outline
  | drafting
  | refining
  | social
  | complete
deriving DecidableEq, Fintype

/-- Embeds `STAGE_ORDER` from `workflow-tabs.tsx` (identical in the project
layout): the fixed total order of the six stages. -/
def STAGE_ORDER : List WorkflowStage :=
  [.upload, .outline, .drafting, .refining, .social, .complete]

/-- Embeds `getStageIndex` from `workflow-tabs.tsx`:
`STAGE_ORDER.indexOf(stage)`. -/
def getStageIndex (stage : WorkflowStage) : Nat :=
  STAGE_ORDER.indexOf stage

/-! ## Outline editing model (`outline-editor.tsx`) -/

/-- Embeds `OutlineSubsection` from `types/workflow.ts`. -/
structure OutlineSubsection where
  id : String
  title : String
  description : String
deriving DecidableEq

/-- Embeds `OutlineSectionData` from `types/workflow.ts`. -/
structure OutlineSectionData where
  id : String
  title : String
  description : String
  subsections : Option (List OutlineSubsection) := none
  order : Option Nat := none
deriving DecidableEq

/-- Embeds `OutlineData` from `types/workflow.ts`. -/
structure OutlineData where
  title : String
  sections : List OutlineSectionData
  prerequisites : Option (List String) := none
  learningGoals : Option (List String) := none
  estimatedReadTime : Option String := none
deriving DecidableEq

/-- The `"section" | "subsection"` discriminator used by the drag and
editing state of the outline editor. -/
inductive ItemKind where
  | sec
  | subsec
deriving DecidableEq

/-- The drag source/target state (`draggedItem` / `dragOverItem`). -/
structure DragItem where
  type : ItemKind
  sectionId : String
  subsectionId : Option String := none
deriving DecidableEq

/-- Embedding of `Array.prototype.findIndex`, with `none` standing for `-1`. -/
def findIndex (p : α → Bool) : List α → Option Nat
  | [] => none
  | x :: xs => if p x then some 0 else (findIndex p xs).map (· + 1)

/-- Embedding of `arr.splice(i, 1)` applied to a copy: drop the element at `i`. -/
def spliceRemove (l : List α) (i : Nat) : List α :=
  l.take i ++ l.drop (i + 1)

/-- Embedding of `arr.splice(i, 0, a)` applied to a copy: insert `a` at `i`. -/
def spliceInsert (l : List α) (i : Nat) (a : α) : List α :=
  l.take i ++ a :: l.drop i

/-- The splice pair of `handleDrop`: remove the element at `fIdx` and
reinsert it at `tIdx`. -/
def moveItem (l : List α) (fIdx tIdx : Nat) : List α :=
  match l[fIdx]? with
  | some x => spliceInsert (spliceRemove l fIdx) tIdx x
  | none => l

/-- The section branch of `handleDrop`: look up the source and target
section indices by id and splice when both exist and differ. -/
def reorderSections (sections : List OutlineSectionData) (srcId tgtId : String) :
    List OutlineSectionData :=
  match findIndex (fun s => s.id == srcId) sections,
        findIndex (fun s => s.id == tgtId) sections with
  | some fIdx, some tIdx =>
    if fIdx ≠ tIdx then moveItem sections fIdx tIdx else sections
  | _, _ => sections

/-- Embeds `handleDragOver` from `outline-editor.tsx`: computes the new
`dragOverItem` when hovering a potential target of kind `t` inside
section `sectionId` (with `subsectionId` set for subsection targets).
Cross-kind targets and cross-section subsection targets are rejected,
leaving `dragOverItem` unchanged. -/
def handleDragOver (disabled : Bool) (draggedItem dragOverItem : Option DragItem)
    (t : ItemKind) (sectionId : String) (subsectionId : Option String) :
    Option DragItem :=
  if disabled then dragOverItem
  else
    match draggedItem with
    | none => dragOverItem
    | some d =>
      if d.type ≠ t then dragOverItem
      else if t = .subsec ∧ d.sectionId ≠ sectionId then dragOverItem
      else some { type := t, sectionId := sectionId, subsectionId := subsectionId }

/-- Embeds `handleDrop` from `outline-editor.tsx`: performs the reorder
described by `draggedItem` and `dragOverItem` (if any), returning the
resulting outline. -/
def handleDrop (disabled : Bool) (outline : OutlineData)
    (draggedItem dragOverItem : Option DragItem) : OutlineData :=
  if disabled then outline
  else
    match draggedItem, dragOverItem with
    | some d, some o =>
      match d.type with
      | .sec =>
        { outline with sections := reorderSections outline.sections d.sectionId o.sectionId }
      | .subsec =>
        match outline.sections.find? (fun s => s.id == d.sectionId) with
        | none => outline
        | some sec =>
          match sec.subsections with
          | none => outline
          | some subs =>
            match findIndex (fun x => some x.id == d.subsectionId) subs,
                  findIndex (fun x => some x.id == o.subsectionId) subs with
            | some fIdx, some tIdx =>
              if fIdx ≠ tIdx then
                { outline with
                  sections := outline.sections.map (fun s =>
                    if s.id == sec.id then
                      { s with subsections := some (moveItem subs fIdx tIdx) }
                    else s) }
              else outline
            | _, _ => outline
    | _, _ => outline

/-- One complete reorder gesture: drag start on `src`, a drag-over on
the target described by `(t, tgtSectionId, tgtSubsectionId)` starting
from an empty `dragOverItem`, then drop. -/
def attemptReorder (outline : OutlineData) (src : DragItem)
    (t : ItemKind) (tgtSectionId : String) (tgtSubsectionId : Option String) :
    OutlineData :=
  handleDrop false outline (some src)
    (handleDragOver false (some src) none t tgtSectionId tgtSubsectionId)

/-- The `"title" | "description"` field selector of the editing state. -/
inductive EditField where
  | title
  | description
deriving DecidableEq

/-- The `EditingState` of the outline editor. -/
structure EditingState where
  type : ItemKind
  sectionId : String
  subsectionId : Option String := none
  field : EditField
deriving DecidableEq

/-- Embedding of `String.prototype.trim`: remove leading and trailing
whitespace. -/
def jsTrim (s : String) : String :=
  String.mk (((s.data.dropWhile Char.isWhitespace).reverse.dropWhile Char.isWhitespace).reverse)

/-- Writing the targeted field of a section
(`{ ...s, [editing.field]: trimmedValue }`). -/
def setSectionField (f : EditField) (v : String) (s : OutlineSectionData) :
    OutlineSectionData :=
  match f with
  | .title => { s with title := v }
  | .description => { s with description := v }

/-- Writing the targeted field of a subsection. -/
def setSubsectionField (f : EditField) (v : String) (s : OutlineSubsection) :
    OutlineSubsection :=
  match f with
  | .title => { s with title := v }
  | .description => { s with description := v }

/-- Embeds `saveEditing` from `outline-editor.tsx`: commit the edit buffer.
The buffer is trimmed; an empty trimmed value cancels without writing;
otherwise the trimmed value is written to the targeted field of the
targeted section or subsection. -/
def saveEditing (outline : OutlineData) (editing : Option EditingState)
    (editValue : String) : OutlineData :=
  match editing with
  | none => outline
  | some e =>
    let trimmedValue := jsTrim editValue
    if trimmedValue = "" then outline
    else
      match e.type with
      | .sec =>
        { outline with
          sections := outline.sections.map (fun s =>
            if s.id == e.sectionId then setSectionField e.field trimmedValue s else s) }
      | .subsec =>
        match e.subsectionId with
        | none => outline
        | some subId =>
          { outline with
            sections := outline.sections.map (fun s =>
              if s.id == e.sectionId then
                { s with
                  subsections := s.subsections.map (fun subs =>
                    subs.map (fun sub =>
                      if sub.id == subId then setSubsectionField e.field trimmedValue sub
                      else sub)) }
              else s) }

/-! ## Operation-status registry (`workflow-store.ts`) -/

/-- Embeds `OperationError` from `types/workflow.ts`. -/
structure OperationError where
  message : String
  details : Option String := none
  code : Option String := none
  retryable : Bool
deriving DecidableEq

/-- Embeds `OperationStatus` from `types/workflow.ts`. -/
structure OperationStatus where
  isLoading : Bool
  loadingMessage : Option String
  error : Option OperationError
  retryCount : Nat
deriving DecidableEq

/-- The operations registry, keyed by operation name. -/
def Operations : Type := String → Option OperationStatus

/-- The empty registry: every key idle (no record). -/
def emptyOperations : Operations := fun _ => none

/-- Value of `retryCount` of the existing record for a key, or the default 0
(the `...DEFAULT_OPERATION_STATUS, ...(state.operations[key] || {})`
spread). -/
def prevRetryCount (ops : Operations) (key : String) : Nat :=
  match ops key with
  | some op => op.retryCount
  | none => 0

/-- Embeds `setOperationLoading` from `workflow-store.ts`: mark the key
loading with the given message, clearing any error and preserving the
retry count. -/
def setOperationLoading (ops : Operations) (key message : String) : Operations :=
  fun k =>
    if k = key then
      some { isLoading := true
             loadingMessage := some message
             error := none
             retryCount := prevRetryCount ops key }
    else ops k

/-- Embeds `setOperationError` from `workflow-store.ts`: store the error for
the key, clearing the loading flag and message and preserving the
retry count. -/
def setOperationError (ops : Operations) (key : String) (e : OperationError) :
    Operations :=
  fun k =>
    if k = key then
      some { isLoading := false
             loadingMessage := none
             error := some e
             retryCount := prevRetryCount ops key }
    else ops k

/-- Embeds `clearOperation` from `workflow-store.ts`: remove the record. -/
def clearOperation (ops : Operations) (key : String) : Operations :=
  fun k => if k = key then none else ops k

/-- Embeds `incrementRetryCount` from `workflow-store.ts`. -/
def incrementRetryCount (ops : Operations) (key : String) : Operations :=
  fun k =>
    if k = key then
      match ops key with
      | some op => some { op with retryCount := op.retryCount + 1 }
      | none => some { isLoading := false
                       loadingMessage := none
                       error := none
                       retryCount := 1 }
    else ops k

/-- Embeds `getOperation` from `workflow-store.ts`. -/
def getOperation (ops : Operations) (key : String) : Option OperationStatus :=
  ops key

/-! ## Concrete example values used in example runs -/

/-- Section `A` (id `a`) of the example outline. -/
def secA : OutlineSectionData := { id := "a", title := "A", description := "dA" }

/-- Section `B` (id `b`) of the example outline. -/
def secB : OutlineSectionData := { id := "b", title := "B", description := "dB" }

/-- Section `C` (id `c`) of the example outline. -/
def secC : OutlineSectionData := { id := "c", title := "C", description := "dC" }

/-- The example outline with sections `[A, B, C]` (ids `a, b, c`). -/
def exOutline : OutlineData := { title := "T", sections := [secA, secB, secC] }

/-- Subsection `X` (id `x`) of the nested example outline. -/
def subX : OutlineSubsection := { id := "x", title := "X", description := "dX" }

/-- Subsection `Y` (id `y`) of the nested example outline. -/
def subY : OutlineSubsection := { id := "y", title := "Y", description := "dY" }

/-- Parent section `P` (id `p`) holding subsections `[X, Y]`. -/
def secP : OutlineSectionData :=
  { id := "p", title := "P", description := "dP", subsections := some [subX, subY] }

/-- The nested example outline with a single section `P`. -/
def exOutline2 : OutlineData := { title := "T2", sections := [secP] }

/-- A concrete translated operation error, as produced for an HTTP 500
failure by the error translation of `use-operation-status.ts`. -/
def cexError : OperationError :=
  { message := "Server error. Please try again later."
    details := some "HTTP 500"
    code := some "500"
    retryable := true }

/-- The parsed body of the example 404 response. -/
def notFoundJson : Json := .obj [("error", .str "not found")]

/-- The example 404 response with a parseable JSON body. -/
def resp404 : HttpResponse := { status := 404, bodyText := "", bodyJson := some notFoundJson }

/-- An example 204 no-content response. -/
def resp204 : HttpResponse := { status := 204, bodyText := "", bodyJson := none }

/-- A 500 response whose body is plain text, not parseable as JSON. -/
def resp500text : HttpResponse :=
  { status := 500, bodyText := "Internal Server Error", bodyJson := none }

/-! ## Workflow stage model: rank uniqueness and round-trip -/

/-- Claim C9: over the closed six-value stage enumeration, the rank
function `getStageIndex` is injective, every rank lies in `0..5`, and
composing stage to rank with rank to stage (indexing `STAGE_ORDER`) is
the identity on all six stage values. -/
theorem stageIndex_injective_roundtrip :
    (∀ s t : WorkflowStage, getStageIndex s = getStageIndex t → s = t) ∧
    (∀ s : WorkflowStage, getStageIndex s < 6) ∧
    (∀ s : WorkflowStage, STAGE_ORDER[getStageIndex s]? = some s) := by
  refine ⟨?_, ?_, ?_⟩ <;> decide

/-- Example run of the stage rank facts at concrete stages. -/
theorem stageIndex_injective_roundtrip_witness :
    WorkflowStage.drafting = WorkflowStage.drafting ∧
    getStageIndex WorkflowStage.complete < 6 ∧
    STAGE_ORDER[getStageIndex WorkflowStage.social]? = some WorkflowStage.social :=
  ⟨stageIndex_injective_roundtrip.1 WorkflowStage.drafting WorkflowStage.drafting rfl,
   stageIndex_injective_roundtrip.2.1 WorkflowStage.complete,
   stageIndex_injective_roundtrip.2.2 WorkflowStage.social⟩

/-! ## Progress stepper: fill percentage and click handling -/

/-- Claim C7: the progress fill percentage equals
`currentStep / (stepCount - 1) * 100` when more than one step exists
and `0` when at most one step exists; consequently it is `0` at the
first step, `100` at the last step of a multi-step list, and is
monotonically non-decreasing in the current step index. -/
theorem progressPercent_spec :
    ∀ n i j : Nat,
      (1 < n → progressPercent n i = (i : ℚ) / ((n : ℚ) - 1) * 100) ∧
      (n ≤ 1 → progressPercent n i = 0) ∧
      (progressPercent n 0 = 0) ∧
      (1 < n → progressPercent n (n - 1) = 100) ∧
      (i ≤ j → progressPercent n i ≤ progressPercent n j) := by
  intro n i j
  refine ⟨?_, ?_, ?_, ?_, ?_⟩
  · intro h
    simp [progressPercent, h]
  · intro h
    rw [progressPercent, if_neg (by omega)]
  · by_cases h : 1 < n
    · simp [progressPercent, h]
    · simp [progressPercent, h]
  · intro h
    have h1 : ((n - 1 : Nat) : ℚ) = (n : ℚ) - 1 := by
      have : 1 ≤ n := by omega
      push_cast [this]
      ring
    have h2 : (n : ℚ) - 1 ≠ 0 := by
      have : (2 : ℚ) ≤ (n : ℚ) := by exact_mod_cast h
      nlinarith
    rw [progressPercent, if_pos h, h1, div_self h2, one_mul]
  · intro hij
    by_cases h : 1 < n
    · rw [progressPercent, if_pos h, progressPercent, if_pos h]
      have hd : (0 : ℚ) < (n : ℚ) - 1 := by
        have : (2 : ℚ) ≤ (n : ℚ) := by exact_mod_cast h
        nlinarith
      have hij' : (i : ℚ) ≤ (j : ℚ) := by exact_mod_cast hij
      gcongr
    · rw [progressPercent, if_neg h, progressPercent, if_neg h]

/-- Example run of the progress percentage facts on a 5-step list. -/
theorem progressPercent_spec_witness :
    progressPercent 5 (5 - 1) = 100 ∧ progressPercent 5 2 ≤ progressPercent 5 3 :=
  ⟨(progressPercent_spec 5 0 0).2.2.2.1 (by decide),
   (progressPercent_spec 5 2 3).2.2.2.2 (by decide)⟩

/-- Claim C8: clicking a step at or after the current index (state
`current` or `future`) triggers no navigation, while clicking a step
strictly before the current index (state `completed`) always navigates
to that step. -/
theorem handleStepClick_spec :
    ∀ currentStep stepIndex : Nat,
      (getStepState currentStep stepIndex = .completed ↔ stepIndex < currentStep) ∧
      (currentStep ≤ stepIndex → handleStepClick currentStep stepIndex = none) ∧
      (stepIndex < currentStep →
        handleStepClick currentStep stepIndex = some stepIndex) := by
  intro c i
  refine ⟨?_, ?_, ?_⟩
  · unfold getStepState
    split
    · simp_all
    · split <;> simp_all
  · intro h
    rw [handleStepClick, if_neg (by omega)]
  · intro h
    rw [handleStepClick, if_pos h]

/-- Example run of the click handling at concrete indices. -/
theorem handleStepClick_spec_witness :
    handleStepClick 2 3 = none ∧ handleStepClick 2 1 = some 1 :=
  ⟨(handleStepClick_spec 2 3).2.1 (by decide),
   (handleStepClick_spec 2 1).2.2 (by decide)⟩

/-! ## Query retry policy -/

/-- Claim C6: the automatic retry predicate never retries a
categorized API error whose status is a listed client error, returns
false whenever the failure count reaches 3, suppresses retry when the
client is offline, uses exponentially doubling backoff delays capped
at 30000 ms, and mutations are never automatically retried. -/
theorem queryRetry_policy_spec :
    ∀ (failureCount : Nat) (err : ApiClientError) (e : QueryError)
      (onLine : Bool) (i : Nat),
      (err.status = 400 ∨ err.status = 401 ∨ err.status = 403 ∨
          err.status = 404 ∨ err.status = 422 →
        queryRetry failureCount (.api err) onLine = false) ∧
      (3 ≤ failureCount → queryRetry failureCount e onLine = false) ∧
      (queryRetry failureCount e false = false) ∧
      (retryDelay (i + 1) = min (2 * retryDelay i) 30000) ∧
      (retryDelay 0 = 1000) ∧
      (mutationsRetry = false) := by
  intro fc err e onLine i
  refine ⟨?_, ?_, ?_, ?_, rfl, rfl⟩
  · intro h
    rcases h with h | h | h | h | h <;>
      simp [queryRetry, HTTP_STATUS_TO_NOT_RETRY, h]
  · intro h
    simp [queryRetry, h]
  · simp [queryRetry]
  · rw [retryDelay, retryDelay, pow_succ]
    have h2 : 1000 * (2 ^ i * 2) = 2 * (1000 * 2 ^ i) := by ring
    rw [h2]
    omega

/-- Example run of the retry policy at concrete inputs. -/
theorem queryRetry_policy_spec_witness :
    queryRetry 0 (.api { status := 404, message := "API error", details := .text "" }) true = false ∧
    queryRetry 3 (.other "Error" "boom") true = false :=
  ⟨(queryRetry_policy_spec 0 { status := 404, message := "API error", details := .text "" }
      (.other "Error" "boom") true 0).1 (by simp),
   (queryRetry_policy_spec 3 { status := 404, message := "API error", details := .text "" }
      (.other "Error" "boom") true 0).2.1 (by decide)⟩

/-! ## API gateway response handling -/

/-- Claim C5, evaluated at the failing input: a non-ok response whose
body is not parseable JSON does not fail with a categorized
`ApiClientError` carrying the raw text — the catch block's
`response.text()` rejects on the already-consumed body stream, so an
uncategorized TypeError escapes instead. The branches the claim gets
right still hold: a 404 with a parseable body fails with status 404
and the parsed body as details, and a 204 resolves to no value. -/
theorem apiClient_bodyConsumed_at_failing_input :
    apiClient resp500text = .bodyConsumedTypeError ∧
    (∀ e : ApiClientError, apiClient resp500text ≠ .err e) ∧
    apiClient resp404 =
      .err { status := 404, message := "API error", details := .json notFoundJson } ∧
    apiClient resp204 = .ok none := by
  refine ⟨rfl, ?_, rfl, rfl⟩
  intro e h
  have h2 : ApiResult.bodyConsumedTypeError = ApiResult.err e := h
  exact ApiResult.noConfusion h2

/-! ## Operation-status registry: stale failure callbacks -/

/-- Claim C1 counterexample: starting an operation twice under key
`k` (messages `m1` then `m2`) and then letting the first instance's
failure callback fire leaves the registry showing the error — not the
newer loading state `isLoading = true` with message `m2` and no error
that the claim requires. The registry has no stale-callback
suppression: `setOperationError` writes unconditionally. -/
theorem staleError_overwrites_newerStart_cex :
    getOperation
      (setOperationError
        (setOperationLoading (setOperationLoading emptyOperations "k" "m1") "k" "m2")
        "k" cexError) "k" =
      some { isLoading := false, loadingMessage := none, error := some cexError, retryCount := 0 } ∧
    ¬ getOperation
        (setOperationError
          (setOperationLoading (setOperationLoading emptyOperations "k" "m1") "k" "m2")
          "k" cexError) "k" =
        some { isLoading := true, loadingMessage := some "m2", error := none, retryCount := 0 } := by
  constructor
  · rfl
  · intro h
    have h2 :
        some { isLoading := false, loadingMessage := none, error := some cexError, retryCount := 0 } =
          some { isLoading := true, loadingMessage := some "m2", error := none,
                 retryCount := 0 : OperationStatus } := by
      rw [← h]
      rfl
    simp at h2

/-- Claim C1 amended: the registry is last-write-wins. After a second
`start` under the same key, a late-arriving failure callback from the
first instance still overwrites the record: the key then shows
`isLoading = false`, no loading message, and the stale error, with the
pre-existing retry count preserved. -/
theorem staleError_lastWriteWins :
    ∀ (ops : Operations) (k m1 m2 : String) (e : OperationError),
      getOperation
        (setOperationError (setOperationLoading (setOperationLoading ops k m1) k m2) k e) k =
        some { isLoading := false, loadingMessage := none, error := some e,
               retryCount := prevRetryCount ops k } := by
  intro ops k m1 m2 e
  simp [getOperation, setOperationError, setOperationLoading, prevRetryCount]

/-! ## Outline editor: rejected reorders are no-ops -/

/-- Dropping with no drag-over target never changes the outline. -/
theorem handleDrop_no_target (disabled : Bool) (outline : OutlineData)
    (draggedItem : Option DragItem) :
    handleDrop disabled outline draggedItem none = outline := by
  cases disabled
  · cases draggedItem <;> rfl
  · rfl

/-- A drag-over on a target of the wrong kind, or on a subsection
target in a different parent section, is rejected: the drag-over state
stays empty. -/
theorem handleDragOver_rejected (src : DragItem) (t : ItemKind)
    (sectionId : String) (subsectionId : Option String)
    (h : src.type ≠ t ∨ (t = .subsec ∧ src.sectionId ≠ sectionId)) :
    handleDragOver false (some src) none t sectionId subsectionId = none := by
  rw [handleDragOver]
  by_cases hx : src.type = t
  · rcases h with h | ⟨h1, h2⟩
    · exact absurd hx h
    · rw [if_neg (by simp), if_neg (by simp [hx]), if_pos ⟨h1, h2⟩]
  · rw [if_neg (by simp), if_pos hx]

/-- Claim C3: a reorder attempt whose drag source and drop target are
of different kinds (section vs subsection), or whose source and target
subsections belong to different parent sections, leaves the outline
document completely unchanged. -/
theorem attemptReorder_rejected_noop :
    ∀ (outline : OutlineData) (src : DragItem) (t : ItemKind)
      (tgtSectionId : String) (tgtSubsectionId : Option String),
      src.type ≠ t ∨ (t = .subsec ∧ src.sectionId ≠ tgtSectionId) →
      attemptReorder outline src t tgtSectionId tgtSubsectionId = outline := by
  intro outline src t ts tss h
  rw [attemptReorder, handleDragOver_rejected src t ts tss h, handleDrop_no_target]

/-- Example runs: a section dragged onto a subsection target, and a
subsection dragged onto a subsection slot of a different parent
section, both leave the outline unchanged. -/
theorem attemptReorder_rejected_noop_witness :
    attemptReorder exOutline { type := .sec, sectionId := "a" } .subsec "a" (some "x") = exOutline ∧
    attemptReorder exOutline2 { type := .subsec, sectionId := "p", subsectionId := some "x" }
        .subsec "q" (some "y") = exOutline2 :=
  ⟨attemptReorder_rejected_noop exOutline { type := .sec, sectionId := "a" } .subsec "a" (some "x")
      (Or.inl (by decide)),
   attemptReorder_rejected_noop exOutline2
      { type := .subsec, sectionId := "p", subsectionId := some "x" } .subsec "q" (some "y")
      (Or.inr ⟨rfl, by decide⟩)⟩

/-! ## Outline editor: reorder is a permutation -/

/-- Soundness of `findIndex`: a found index is in bounds and the
element there satisfies the predicate. -/
theorem findIndex_some {p : α → Bool} :
    ∀ {l : List α} {i : Nat}, findIndex p l = some i →
      i < l.length ∧ ∃ x, l[i]? = some x ∧ p x = true := by
  intro l
  induction l with
  | nil => intro i h; simp [findIndex] at h
  | cons a as ih =>
    intro i h
    rw [findIndex] at h
    by_cases hp : p a
    · rw [if_pos hp] at h
      injection h with h1
      subst h1
      exact ⟨by simp, a, by simp, hp⟩
    · rw [if_neg hp] at h
      rw [Option.map_eq_some'] at h
      obtain ⟨i2, hfa, hi⟩ := h
      subst hi
      obtain ⟨hlt, x, hx, hpx⟩ := ih hfa
      refine ⟨by simp; omega, x, ?_, hpx⟩
      simpa using hx

/-- A `some` result of indexing is in bounds. -/
theorem getElem?_some_lt {l : List α} {i : Nat} {x : α} (h : l[i]? = some x) :
    i < l.length := by
  by_contra hc
  push_neg at hc
  rw [List.getElem?_eq_none hc] at h
  cases h

/-- Decomposition of a list around the element at a valid index. -/
theorem list_decomp {l : List α} {i : Nat} {x : α} (h : l[i]? = some x) :
    l = l.take i ++ x :: l.drop (i + 1) := by
  have hi : i < l.length := getElem?_some_lt h
  have hx : l[i] = x := by
    rw [List.getElem?_eq_getElem hi] at h
    injection h
  conv_lhs => rw [← List.take_append_drop i l]
  rw [List.drop_eq_getElem_cons hi, hx]

/-- Inserting an element by splice yields a permutation of consing it. -/
theorem spliceInsert_perm (l : List α) (i : Nat) (x : α) :
    (spliceInsert l i x).Perm (x :: l) := by
  rw [spliceInsert]
  have h := @List.perm_middle α x (l.take i) (l.drop i)
  rwa [List.take_append_drop] at h

/-- Splicing an element out and back in at a target index yields a
permutation of the original list, with the moved element sitting at
the target index. -/
theorem moveItem_spec {l : List α} {fIdx tIdx : Nat} {x : α}
    (hf : l[fIdx]? = some x) (ht : tIdx ≤ l.length - 1) :
    (moveItem l fIdx tIdx).Perm l ∧ (moveItem l fIdx tIdx)[tIdx]? = some x := by
  have hm : moveItem l fIdx tIdx = spliceInsert (spliceRemove l fIdx) tIdx x := by
    rw [moveItem, hf]
  rw [hm]
  have hfl : fIdx < l.length := getElem?_some_lt hf
  have hrlen : (spliceRemove l fIdx).length = l.length - 1 := by
    rw [spliceRemove]
    simp [List.length_take, List.length_drop]
    omega
  constructor
  · have p1 := spliceInsert_perm (spliceRemove l fIdx) tIdx x
    have p2 : (x :: spliceRemove l fIdx).Perm l := by
      have hm := @List.perm_middle α x (l.take fIdx) (l.drop (fIdx + 1))
      rw [spliceRemove]
      rw [← list_decomp hf] at hm
      exact hm.symm
    exact p1.trans p2
  · rw [spliceInsert]
    have hlen : ((spliceRemove l fIdx).take tIdx).length = tIdx := by
      rw [List.length_take]
      omega
    rw [List.getElem?_append_right (le_of_eq hlen), hlen]
    simp

/-- The drag-over step of a same-kind section reorder accepts the
target. -/
theorem handleDragOver_section_accepts (srcId : String) (srcSub : Option String)
    (tgtId : String) (tgtSub : Option String) :
    handleDragOver false (some { type := .sec, sectionId := srcId, subsectionId := srcSub })
        none .sec tgtId tgtSub =
      some { type := .sec, sectionId := tgtId, subsectionId := tgtSub } := by
  rw [handleDragOver]
  rw [if_neg (by simp), if_neg (by simp), if_neg (by simp)]

/-- The drag-over step of a same-parent subsection reorder accepts the
target. -/
theorem handleDragOver_subsection_accepts (pId sId tId : String) :
    handleDragOver false
        (some { type := .subsec, sectionId := pId, subsectionId := some sId })
        none .subsec pId (some tId) =
      some { type := .subsec, sectionId := pId, subsectionId := some tId } := by
  rw [handleDragOver]
  rw [if_neg (by simp), if_neg (by simp), if_neg (by simp)]

/-- A complete same-kind section reorder gesture reduces to the
section-branch splice of `handleDrop`. -/
theorem attemptReorder_sec_eq (outline : OutlineData) (srcId : String)
    (srcSub : Option String) (tgtId : String) (tgtSub : Option String) :
    attemptReorder outline { type := .sec, sectionId := srcId, subsectionId := srcSub }
        .sec tgtId tgtSub =
      { outline with sections := reorderSections outline.sections srcId tgtId } := by
  rw [attemptReorder, handleDragOver_section_accepts, handleDrop]
  rw [if_neg (by simp)]

/-- The subsection branch of `handleDrop`, evaluated when the parent
section is found, its subsections exist, and both subsection indices
are found and differ. -/
theorem handleDrop_subsec_found (outline : OutlineData) (pId sId tId : String)
    (sec : OutlineSectionData) (subs : List OutlineSubsection) (f2 t2 : Nat)
    (hfind : outline.sections.find? (fun s => s.id == pId) = some sec)
    (hsubs : sec.subsections = some subs)
    (hf2 : findIndex (fun x => some x.id == some sId) subs = some f2)
    (ht2 : findIndex (fun x => some x.id == some tId) subs = some t2)
    (hne : f2 ≠ t2) :
    handleDrop false outline
        (some { type := .subsec, sectionId := pId, subsectionId := some sId })
        (some { type := .subsec, sectionId := pId, subsectionId := some tId }) =
      { outline with sections := outline.sections.map (fun s =>
          if s.id == sec.id then
            { s with subsections := some (moveItem subs f2 t2) }
          else s) } := by
  have h0 : handleDrop false outline
      (some { type := .subsec, sectionId := pId, subsectionId := some sId })
      (some { type := .subsec, sectionId := pId, subsectionId := some tId }) =
      (match outline.sections.find? (fun s => s.id == pId) with
       | none => outline
       | some sec2 =>
         match sec2.subsections with
         | none => outline
         | some subs2 =>
           match findIndex (fun x => some x.id == some sId) subs2,
                 findIndex (fun x => some x.id == some tId) subs2 with
           | some fIdx, some tIdx =>
             if fIdx ≠ tIdx then
               { outline with sections := outline.sections.map (fun s =>
                   if s.id == sec2.id then
                     { s with subsections := some (moveItem subs2 fIdx tIdx) }
                   else s) }
             else outline
           | _, _ => outline) := rfl
  rw [h0, hfind]
  simp only [hsubs, hf2, ht2]
  rw [if_pos hne]

/-- Claim C2: a section reorder between two distinct present section
identifiers produces a permutation of the original section sequence
(same identifiers, same count) with the dragged section sitting at the
index the target occupied before; the same holds for subsection
reorder within one parent section; in particular, for the outline
`[A, B, C]` with ids `a, b, c`, dragging `a` onto `c` yields
`[B, C, A]`. -/
theorem outline_reorder_permutation :
    ∀ (outline : OutlineData) (srcId tgtId : String) (srcSub tgtSub : Option String)
      (f t : Nat),
      (srcId ≠ tgtId →
        findIndex (fun s => s.id == srcId) outline.sections = some f →
        findIndex (fun s => s.id == tgtId) outline.sections = some t →
        (attemptReorder outline { type := .sec, sectionId := srcId, subsectionId := srcSub }
            .sec tgtId tgtSub).sections.Perm outline.sections ∧
        (attemptReorder outline { type := .sec, sectionId := srcId, subsectionId := srcSub }
            .sec tgtId tgtSub).sections.length = outline.sections.length ∧
        ((attemptReorder outline { type := .sec, sectionId := srcId, subsectionId := srcSub }
            .sec tgtId tgtSub).sections.map (fun s => s.id)).Perm
          (outline.sections.map (fun s => s.id)) ∧
        (∃ secx, outline.sections[f]? = some secx ∧ secx.id = srcId ∧
          (attemptReorder outline { type := .sec, sectionId := srcId, subsectionId := srcSub }
              .sec tgtId tgtSub).sections[t]? = some secx)) ∧
      (∀ (sec : OutlineSectionData) (subs : List OutlineSubsection)
         (pId sId tId : String) (f2 t2 : Nat),
        sId ≠ tId →
        outline.sections.find? (fun s => s.id == pId) = some sec →
        sec.subsections = some subs →
        findIndex (fun x => some x.id == some sId) subs = some f2 →
        findIndex (fun x => some x.id == some tId) subs = some t2 →
        ∃ newSubs : List OutlineSubsection,
          newSubs.Perm subs ∧
          newSubs.length = subs.length ∧
          (∃ subx, subs[f2]? = some subx ∧ subx.id = sId ∧ newSubs[t2]? = some subx) ∧
          attemptReorder outline { type := .subsec, sectionId := pId, subsectionId := some sId }
              .subsec pId (some tId) =
            { outline with sections := outline.sections.map (fun s =>
                if s.id == sec.id then { s with subsections := some newSubs } else s) }) ∧
      attemptReorder exOutline { type := .sec, sectionId := "a" } .sec "c" none =
        { exOutline with sections := [secB, secC, secA] } := by
  intro outline srcId tgtId srcSub tgtSub f t
  refine ⟨?_, ?_, ?_⟩
  · intro hne hf ht
    obtain ⟨hflt, secx, hsx, hpx⟩ := findIndex_some hf
    obtain ⟨htlt, secy, hsy, hpy⟩ := findIndex_some ht
    have hxid : secx.id = srcId := by simpa using hpx
    have hyid : secy.id = tgtId := by simpa using hpy
    have hft : f ≠ t := by
      intro he
      subst he
      rw [hsx] at hsy
      injection hsy with hh
      exact hne (by rw [← hxid, hh, hyid])
    have hrw : (attemptReorder outline
        { type := .sec, sectionId := srcId, subsectionId := srcSub } .sec tgtId tgtSub).sections =
        moveItem outline.sections f t := by
      rw [attemptReorder_sec_eq]
      show reorderSections outline.sections srcId tgtId = moveItem outline.sections f t
      rw [reorderSections]
      simp only [hf, ht]
      rw [if_pos hft]
    have hms := moveItem_spec hsx (show t ≤ outline.sections.length - 1 by omega)
    rw [hrw]
    exact ⟨hms.1, hms.1.length_eq, hms.1.map (fun s => s.id),
           secx, hsx, hxid, hms.2⟩
  · intro sec subs pId sId tId f2 t2 hne hfind hsubs hf2 ht2
    obtain ⟨hf2lt, subx, hsubx, hpx⟩ := findIndex_some hf2
    obtain ⟨ht2lt, suby, hsuby, hpy⟩ := findIndex_some ht2
    have hxid : subx.id = sId := by simpa using hpx
    have hyid : suby.id = tId := by simpa using hpy
    have hft : f2 ≠ t2 := by
      intro he
      subst he
      rw [hsubx] at hsuby
      injection hsuby with hh
      exact hne (by rw [← hxid, hh, hyid])
    have hms := moveItem_spec hsubx (show t2 ≤ subs.length - 1 by omega)
    refine ⟨moveItem subs f2 t2, hms.1, hms.1.length_eq, ⟨subx, hsubx, hxid, hms.2⟩, ?_⟩
    rw [attemptReorder, handleDragOver_subsection_accepts]
    exact handleDrop_subsec_found outline pId sId tId sec subs f2 t2 hfind hsubs hf2 ht2 hft
  · rfl

/-- Example runs of the reorder permutation facts: the `[A, B, C]`
section drag of `a` onto `c`, and a subsection drag of `x` onto `y`
inside parent `p`. -/
theorem outline_reorder_permutation_witness :
    (attemptReorder exOutline { type := .sec, sectionId := "a" } .sec "c" none).sections.Perm
        exOutline.sections ∧
    (attemptReorder exOutline { type := .sec, sectionId := "a" } .sec "c" none).sections[2]? =
        some secA ∧
    (∃ newSubs : List OutlineSubsection,
      newSubs.Perm [subX, subY] ∧
      newSubs.length = 2 ∧
      (∃ subx, ([subX, subY] : List OutlineSubsection)[0]? = some subx ∧ subx.id = "x" ∧
        newSubs[1]? = some subx) ∧
      attemptReorder exOutline2 { type := .subsec, sectionId := "p", subsectionId := some "x" }
          .subsec "p" (some "y") =
        { exOutline2 with sections := exOutline2.sections.map (fun s =>
            if s.id == secP.id then { s with subsections := some newSubs } else s) }) := by
  have h1 := (outline_reorder_permutation exOutline "a" "c" none none 0 2).1
    (by decide) (by decide) (by decide)
  have h2 := (outline_reorder_permutation exOutline2 "a" "c" none none 0 0).2.1
    secP [subX, subY] "p" "x" "y" 0 1 (by decide) (by decide) rfl (by decide) (by decide)
  refine ⟨h1.1, ?_, ?_⟩
  · obtain ⟨-, -, -, secx, hsx, hid, hpos⟩ := h1
    have : secx = secA := by
      have : some secx = some secA := by rw [← hsx]; rfl
      injection this
    rw [← this]
    exact hpos
  · obtain ⟨newSubs, hperm, hlen, hex, heq⟩ := h2
    exact ⟨newSubs, hperm, hlen, hex, heq⟩

/-! ## Outline editor: committing an edit -/

/-- Under a duplicate-free projection, elements at distinct indices
have distinct projected values. -/
theorem nodup_map_ne {l : List α} {f : α → β} (hnd : (l.map f).Nodup)
    {i j : Nat} {a b : α} (hi : l[i]? = some a) (hj : l[j]? = some b) (hij : i ≠ j) :
    f a ≠ f b := by
  intro he
  have hi' : (l.map f)[i]? = some (f a) := by rw [List.getElem?_map, hi]; rfl
  have hj' : (l.map f)[j]? = some (f b) := by rw [List.getElem?_map, hj]; rfl
  have hilt : i < (l.map f).length := getElem?_some_lt hi'
  exact hij (List.getElem?_inj hilt hnd (by rw [hi', hj', he]))

/-- Claim C4: committing an edit with a buffer whose trimmed value is
empty leaves the document unchanged; committing with a non-empty
trimmed value writes exactly that trimmed value into the targeted
field of the targeted section or subsection, leaving every other
field of every entity (and the document fields) unchanged. -/
theorem saveEditing_commit_spec :
    ∀ (outline : OutlineData) (e : EditingState) (v : String),
      (jsTrim v = "" → saveEditing outline (some e) v = outline) ∧
      (∀ (i : Nat) (sec : OutlineSectionData),
        e.type = .sec → jsTrim v ≠ "" →
        (outline.sections.map (fun s => s.id)).Nodup →
        outline.sections[i]? = some sec → sec.id = e.sectionId →
        (saveEditing outline (some e) v).title = outline.title ∧
        (saveEditing outline (some e) v).prerequisites = outline.prerequisites ∧
        (saveEditing outline (some e) v).learningGoals = outline.learningGoals ∧
        (saveEditing outline (some e) v).estimatedReadTime = outline.estimatedReadTime ∧
        (saveEditing outline (some e) v).sections.length = outline.sections.length ∧
        (saveEditing outline (some e) v).sections[i]? =
          some (setSectionField e.field (jsTrim v) sec) ∧
        (∀ j, j ≠ i → (saveEditing outline (some e) v).sections[j]? = outline.sections[j]?)) ∧
      (∀ (i : Nat) (sec : OutlineSectionData) (subs : List OutlineSubsection)
         (k : Nat) (sub : OutlineSubsection) (subId : String),
        e.type = .subsec → e.subsectionId = some subId → jsTrim v ≠ "" →
        (outline.sections.map (fun s => s.id)).Nodup →
        outline.sections[i]? = some sec → sec.id = e.sectionId →
        sec.subsections = some subs →
        (subs.map (fun s => s.id)).Nodup →
        subs[k]? = some sub → sub.id = subId →
        ∃ newSubs : List OutlineSubsection,
          (saveEditing outline (some e) v).title = outline.title ∧
          (saveEditing outline (some e) v).sections.length = outline.sections.length ∧
          (∀ j, j ≠ i → (saveEditing outline (some e) v).sections[j]? = outline.sections[j]?) ∧
          (saveEditing outline (some e) v).sections[i]? =
            some { sec with subsections := some newSubs } ∧
          newSubs.length = subs.length ∧
          newSubs[k]? = some (setSubsectionField e.field (jsTrim v) sub) ∧
          (∀ m, m ≠ k → newSubs[m]? = subs[m]?)) := by
  intro outline e v
  rcases e with ⟨ty, sid, ssub, fld⟩
  refine ⟨?_, ?_, ?_⟩
  · intro htrim
    cases ty
    · have hR : saveEditing outline
          (some { type := ItemKind.sec, sectionId := sid, subsectionId := ssub, field := fld }) v =
          if jsTrim v = "" then outline
          else { outline with sections := outline.sections.map (fun s =>
                   if s.id == sid then setSectionField fld (jsTrim v) s else s) } := rfl
      rw [hR, if_pos htrim]
    · cases ssub with
      | none =>
        have hR : saveEditing outline
            (some { type := ItemKind.subsec, sectionId := sid, subsectionId := none,
                    field := fld }) v =
            if jsTrim v = "" then outline else outline := rfl
        rw [hR, if_pos htrim]
      | some subId =>
        have hR : saveEditing outline
            (some { type := ItemKind.subsec, sectionId := sid, subsectionId := some subId,
                    field := fld }) v =
            if jsTrim v = "" then outline
            else { outline with sections := outline.sections.map (fun s =>
                     if s.id == sid then
                       { s with subsections := s.subsections.map (fun subs =>
                           subs.map (fun sub =>
                             if sub.id == subId then setSubsectionField fld (jsTrim v) sub
                             else sub)) }
                     else s) } := rfl
        rw [hR, if_pos htrim]
  · intro i sec hty htrim hnd hsec hid
    cases ty
    case subsec => exact ItemKind.noConfusion (show ItemKind.subsec = ItemKind.sec from hty)
    case sec =>
    have hid2 : sec.id = sid := hid
    have hR : saveEditing outline
        (some { type := ItemKind.sec, sectionId := sid, subsectionId := ssub, field := fld }) v =
        { outline with sections := outline.sections.map (fun s =>
            if s.id == sid then setSectionField fld (jsTrim v) s else s) } := by
      have h0 : saveEditing outline
          (some { type := ItemKind.sec, sectionId := sid, subsectionId := ssub, field := fld }) v =
          if jsTrim v = "" then outline
          else { outline with sections := outline.sections.map (fun s =>
                   if s.id == sid then setSectionField fld (jsTrim v) s else s) } := rfl
      rw [h0, if_neg htrim]
    rw [hR]
    refine ⟨rfl, rfl, rfl, rfl, by simp, ?_, ?_⟩
    · show (outline.sections.map (fun s =>
          if s.id == sid then setSectionField fld (jsTrim v) s else s))[i]? =
        some (setSectionField fld (jsTrim v) sec)
      rw [List.getElem?_map, hsec, Option.map_some']
      rw [if_pos (by simp [hid2])]
    · intro j hj
      show (outline.sections.map (fun s =>
          if s.id == sid then setSectionField fld (jsTrim v) s else s))[j]? =
        outline.sections[j]?
      rw [List.getElem?_map]
      cases hjv : outline.sections[j]? with
      | none => rfl
      | some b =>
        have hbne : sec.id ≠ b.id := nodup_map_ne hnd hsec hjv (Ne.symm hj)
        have hbsid : ¬(b.id = sid) := fun h2 => hbne (hid2.trans h2.symm)
        rw [Option.map_some', if_neg (by simp [hbsid])]
  · intro i sec subs k sub subId hty hssub htrim hnd hsec hid hsubs hnd2 hsub hsubid
    cases ty
    case sec => exact ItemKind.noConfusion (show ItemKind.sec = ItemKind.subsec from hty)
    case subsec =>
    have hssub2 : ssub = some subId := hssub
    subst hssub2
    have hid2 : sec.id = sid := hid
    have hsubid2 : sub.id = subId := hsubid
    have hR : saveEditing outline
        (some { type := ItemKind.subsec, sectionId := sid, subsectionId := some subId,
                field := fld }) v =
        { outline with sections := outline.sections.map (fun s =>
            if s.id == sid then
              { s with subsections := s.subsections.map (fun subs2 =>
                  subs2.map (fun sub2 =>
                    if sub2.id == subId then setSubsectionField fld (jsTrim v) sub2
                    else sub2)) }
            else s) } := by
      have h0 : saveEditing outline
          (some { type := ItemKind.subsec, sectionId := sid, subsectionId := some subId,
                  field := fld }) v =
          if jsTrim v = "" then outline
          else { outline with sections := outline.sections.map (fun s =>
                   if s.id == sid then
                     { s with subsections := s.subsections.map (fun subs2 =>
                         subs2.map (fun sub2 =>
                           if sub2.id == subId then setSubsectionField fld (jsTrim v) sub2
                           else sub2)) }
                   else s) } := rfl
      rw [h0, if_neg htrim]
    refine ⟨subs.map (fun sub2 =>
        if sub2.id == subId then setSubsectionField fld (jsTrim v) sub2 else sub2),
      ?_, ?_, ?_, ?_, by simp, ?_, ?_⟩
    · rw [hR]
    · rw [hR]
      show (outline.sections.map _).length = outline.sections.length
      simp
    · intro j hj
      rw [hR]
      show (outline.sections.map (fun s =>
          if s.id == sid then
            { s with subsections := s.subsections.map (fun subs2 =>
                subs2.map (fun sub2 =>
                  if sub2.id == subId then setSubsectionField fld (jsTrim v) sub2
                  else sub2)) }
          else s))[j]? = outline.sections[j]?
      rw [List.getElem?_map]
      cases hjv : outline.sections[j]? with
      | none => rfl
      | some b =>
        have hbne : sec.id ≠ b.id := nodup_map_ne hnd hsec hjv (Ne.symm hj)
        have hbsid : ¬(b.id = sid) := fun h2 => hbne (hid2.trans h2.symm)
        rw [Option.map_some', if_neg (by simp [hbsid])]
    · rw [hR]
      show (outline.sections.map (fun s =>
          if s.id == sid then
            { s with subsections := s.subsections.map (fun subs2 =>
                subs2.map (fun sub2 =>
                  if sub2.id == subId then setSubsectionField fld (jsTrim v) sub2
                  else sub2)) }
          else s))[i]? = _
      rw [List.getElem?_map, hsec, Option.map_some', if_pos (by simp [hid2]), hsubs,
        Option.map_some']
    · rw [List.getElem?_map, hsub, Option.map_some', if_pos (by simp [hsubid2])]
    · intro m hm
      rw [List.getElem?_map]
      cases hmv : subs[m]? with
      | none => rfl
      | some b =>
        have hbne : sub.id ≠ b.id := nodup_map_ne hnd2 hsub hmv (Ne.symm hm)
        have hbsid : ¬(b.id = subId) := fun h2 => hbne (hsubid2.trans h2.symm)
        rw [Option.map_some', if_neg (by simp [hbsid])]

/-- Example runs of commit: a whitespace-only buffer leaves the
example outline unchanged, and committing a padded title writes the
trimmed value into section `a` alone. -/
theorem saveEditing_commit_spec_witness :
    saveEditing exOutline
        (some { type := .sec, sectionId := "a", field := .title }) "   " = exOutline ∧
    (saveEditing exOutline
        (some { type := .sec, sectionId := "a", field := .title }) " New ").sections[0]? =
      some (setSectionField .title (jsTrim " New ") secA) ∧
    (saveEditing exOutline
        (some { type := .sec, sectionId := "a", field := .title }) " New ").sections[1]? =
      exOutline.sections[1]? :=
  ⟨(saveEditing_commit_spec exOutline
      { type := .sec, sectionId := "a", field := .title } "   ").1 (by decide),
   ((saveEditing_commit_spec exOutline
      { type := .sec, sectionId := "a", field := .title } " New ").2.1 0 secA rfl
      (by decide) (by decide) (by decide) rfl).2.2.2.2.2.1,
   ((saveEditing_commit_spec exOutline
      { type := .sec, sectionId := "a", field := .title } " New ").2.1 0 secA rfl
      (by decide) (by decide) (by decide) rfl).2.2.2.2.2.2 1 (by decide)⟩

/-! ## Idempotence of the key transform -/

/-- Conversion of valid code points round-trips through `Char.ofNat`. -/
theorem char_toNat_ofNat {n : Nat} (h : n < 55296) : (Char.ofNat n).toNat = n := by
  unfold Char.ofNat
  split
  · rfl
  · exact absurd (Or.inl h) (by assumption)

/-- Unfolding of the ASCII lowercase test. -/
theorem isLowerAscii_iff {c : Char} :
    isLowerAscii c = true ↔ 97 ≤ c.toNat ∧ c.toNat ≤ 122 := by
  simp [isLowerAscii]

/-- Uppercasing an ASCII lowercase letter leaves the lowercase range. -/
theorem isLowerAscii_upcase {c : Char} (h : isLowerAscii c = true) :
    isLowerAscii (upcaseAscii c) = false := by
  have hb := isLowerAscii_iff.mp h
  rw [upcaseAscii, if_pos h]
  have ht : (Char.ofNat (c.toNat - 32)).toNat = c.toNat - 32 := char_toNat_ofNat (by omega)
  simp [isLowerAscii, ht]
  omega

/-- Uppercasing an ASCII lowercase letter never yields an underscore. -/
theorem upcase_ne_underscore {c : Char} (h : isLowerAscii c = true) :
    (upcaseAscii c == '_') = false := by
  have hb := isLowerAscii_iff.mp h
  rw [upcaseAscii, if_pos h]
  have ht : (Char.ofNat (c.toNat - 32)).toNat = c.toNat - 32 := char_toNat_ofNat (by omega)
  have hne : Char.ofNat (c.toNat - 32) ≠ '_' := by
    intro he
    have h2 : (Char.ofNat (c.toNat - 32)).toNat = ('_').toNat := by rw [he]
    rw [ht] at h2
    have h95 : ('_').toNat = 95 := rfl
    omega
  simp [hne]

/-- Scanning past a non-underscore character. -/
theorem camelChars_cons_ne {c : Char} (h : ¬(c = '_')) (l : List Char) :
    camelChars (c :: l) = c :: camelChars l := by
  rw [camelChars.eq_def]
  simp only [h, if_false]

/-- The snake pair itself: underscore before a lowercase letter is
consumed and the letter uppercased. -/
theorem camelChars_snake {d : Char} (hd : isLowerAscii d = true) (l : List Char) :
    camelChars ('_' :: d :: l) = upcaseAscii d :: camelChars l := by
  rw [camelChars, if_pos rfl]
  show (if isLowerAscii d then upcaseAscii d :: camelChars l
        else '_' :: camelChars (d :: l)) = upcaseAscii d :: camelChars l
  rw [if_pos hd]

/-- An underscore before a non-lowercase character is kept and the
scan resumes at the next character. -/
theorem camelChars_underscore_notlower {d : Char} (hd : isLowerAscii d = false)
    (l : List Char) :
    camelChars ('_' :: d :: l) = '_' :: camelChars (d :: l) := by
  rw [camelChars, if_pos rfl]
  show (if isLowerAscii d then upcaseAscii d :: camelChars l
        else '_' :: camelChars (d :: l)) = '_' :: camelChars (d :: l)
  rw [if_neg (by simp [hd])]

/-- A list satisfying the no-snake invariant is a fixed point of the
camel-casing scan. -/
theorem noSnake_fixed : ∀ l : List Char, noSnake l = true → camelChars l = l := by
  intro l
  induction l with
  | nil => intro _; rfl
  | cons c rest ih =>
    intro h
    rw [noSnake, Bool.and_eq_true] at h
    obtain ⟨h1, h2⟩ := h
    by_cases hc : c = '_'
    · subst hc
      have hh : headNotLower rest = true := by simpa using h1
      cases rest with
      | nil => rfl
      | cons d rest2 =>
        have hd : isLowerAscii d = false := by simpa [headNotLower] using hh
        rw [camelChars_underscore_notlower hd, ih h2]
    · rw [camelChars_cons_ne hc, ih h2]

/-- The camel-casing scan establishes the no-snake invariant
(bounded-length version for the induction). -/
theorem noSnake_camelChars_aux :
    ∀ (n : Nat) (l : List Char), l.length ≤ n → noSnake (camelChars l) = true := by
  intro n
  induction n with
  | zero =>
    intro l hl
    have hz : l = [] := List.length_eq_zero.mp (by omega)
    subst hz
    rfl
  | succ n ih =>
    intro l hl
    cases l with
    | nil => rfl
    | cons c rest =>
      by_cases hc : c = '_'
      · subst hc
        cases rest with
        | nil => rfl
        | cons d rest2 =>
          by_cases hd : isLowerAscii d = true
          · rw [camelChars_snake hd, noSnake, upcase_ne_underscore hd]
            rw [ih rest2 (by simp at hl ⊢; omega)]
            simp
          · have hd2 : isLowerAscii d = false := by
              revert hd
              cases isLowerAscii d <;> simp
            rw [camelChars_underscore_notlower hd2, noSnake]
            have hh : headNotLower (camelChars (d :: rest2)) = true := by
              by_cases hdu : d = '_'
              · subst hdu
                cases rest2 with
                | nil => rfl
                | cons e rest3 =>
                  by_cases he : isLowerAscii e = true
                  · rw [camelChars_snake he, headNotLower, isLowerAscii_upcase he]
                    rfl
                  · have he2 : isLowerAscii e = false := by
                      revert he
                      cases isLowerAscii e <;> simp
                    rw [camelChars_underscore_notlower he2]
                    rfl
              · rw [camelChars_cons_ne hdu, headNotLower, hd2]
                rfl
            rw [hh, ih (d :: rest2) (by simp at hl ⊢; omega)]
            simp
      · rw [camelChars_cons_ne hc, noSnake]
        have h1 : (c == '_') = false := by simpa using hc
        rw [h1, ih rest (by simp at hl ⊢; omega)]
        simp

/-- The camel-casing scan establishes the no-snake invariant. -/
theorem noSnake_camelChars (l : List Char) : noSnake (camelChars l) = true :=
  noSnake_camelChars_aux l.length l (Nat.le_refl _)

/-- The camel-casing scan is idempotent at the character level. -/
theorem camelChars_idem (l : List Char) : camelChars (camelChars l) = camelChars l :=
  noSnake_fixed _ (noSnake_camelChars l)

/-- Key-level idempotence of the snake-to-camel conversion. -/
theorem toCamelCase_idem (s : String) : toCamelCase (toCamelCase s) = toCamelCase s :=
  congrArg String.mk (camelChars_idem s.data)

mutual

/-- Idempotence of the recursive key transform on a JSON value. -/
theorem transformKeys_idem_j : ∀ j : Json, transformKeys (transformKeys j) = transformKeys j
  | .null => rfl
  | .bool _ => rfl
  | .num _ => rfl
  | .str _ => rfl
  | .arr elems => by
    simp only [transformKeys]
    rw [transformKeys_idem_list elems]
  | .obj fields => by
    simp only [transformKeys]
    rw [transformKeys_idem_obj fields]

/-- Idempotence of the key transform on an array of JSON values. -/
theorem transformKeys_idem_list :
    ∀ xs : List Json, transformKeysList (transformKeysList xs) = transformKeysList xs
  | [] => rfl
  | x :: xs => by
    simp only [transformKeysList]
    rw [transformKeys_idem_j x, transformKeys_idem_list xs]

/-- Idempotence of the key transform on object fields. -/
theorem transformKeys_idem_obj :
    ∀ fs : List (String × Json), transformKeysObj (transformKeysObj fs) = transformKeysObj fs
  | [] => rfl
  | (k, v) :: fs => by
    simp only [transformKeysObj]
    rw [toCamelCase_idem k, transformKeys_idem_j v, transformKeys_idem_obj fs]

end

/-- Claim C10: the wire-to-internal field-name transform is
idempotent: applying the recursive snake-to-camel key transform twice
yields the same result as applying it once, and indeed a converted
key contains no underscore-followed-by-lowercase-letter pattern left
to rewrite. -/
theorem transformKeys_idempotent :
    (∀ j : Json, transformKeys (transformKeys j) = transformKeys j) ∧
    (∀ s : String, toCamelCase (toCamelCase s) = toCamelCase s) ∧
    (∀ s : String, noSnake (toCamelCase s).data = true) :=
  ⟨transformKeys_idem_j, toCamelCase_idem, fun s => noSnake_camelChars s.data⟩

end Quibo
